import Mathlib

/-!
Shallow embedding of the llm-trader execution core (src/llm_trader), covering
the order executor (`executor.py`), the execution-ledger storage operations
(`store.py`), the equity/drawdown tracker (`store.py`), and the runner's
kill-switch check (`runner.py`).

Modelling conventions:
* Python floats are idealised as rationals (`ℚ`); `int(x)` is truncation
  toward zero (`pyTrunc`), `round(x, 2)` is round-half-to-even at two
  decimals (`pyRound2`), and `str.lower()` is `pyLower`.
* Exceptions raised by external components (database, broker) are modelled
  as explicit failure flags in the environment (`Ledger.readRaises`,
  `Ledger.writeRaises`, `Broker.validateExn`, `Broker.submitRaises`); each
  Python `try/except` fallback is reproduced at the corresponding call site,
  so every embedded operation is a total function of the environment.
* The broker gateway is an oracle of responses (`Broker`): the account
  snapshot, the open-positions list, the per-symbol position lookup, and the
  order-id response of `submit_order`.  A call to `submit_order` is recorded
  in a submission log so that "number of broker orders submitted" is
  observable.
-/

/-- Python `int(q)` on a rational: truncation toward zero. -/
def pyTrunc (q : ℚ) : ℤ := if 0 ≤ q then ⌊q⌋ else ⌈q⌉

/-- Round to the nearest integer, ties to even (Python `round` semantics). -/
def roundHalfEven (q : ℚ) : ℤ :=
  let f := ⌊q⌋
  let r := q - (f : ℚ)
  if r < 1 / 2 then f
  else if 1 / 2 < r then f + 1
  else if f % 2 = 0 then f else f + 1

/-- Python `round(q, 2)`: round to cents, ties to even. -/
def pyRound2 (q : ℚ) : ℚ := ((roundHalfEven (q * 100) : ℤ) : ℚ) / 100

/-- Python `str.lower()` (ASCII, which is all the source compares),
applied characterwise to the string's data. -/
def pyLower (s : String) : String := String.mk (s.data.map Char.toLower)

/-- Python substring containment `needle in hay` over character lists. -/
def hasSub (needle : List Char) : List Char → Bool
  | [] => needle.isEmpty
  | c :: rest => needle.isPrefixOf (c :: rest) || hasSub needle rest

/-- Numeric value of a decimal digit character. -/
def digitVal (c : Char) : ℕ := c.toNat - '0'.toNat

/-- Value of a list of decimal digit characters, most significant first. -/
def digitsToNat (l : List Char) : ℕ := l.foldl (fun a c => 10 * a + digitVal c) 0

/-- Leftmost match of the Python regex `(\d+(?:\.\d+)?)X` where `X` is the
terminator character (`'%'` for stop distances, `'r'` for reward multiples),
returning the matched number as a rational (`float(match.group(1))`).
At each start position the maximal digit run is taken; shortening the run can
never help this pattern (the character after a shorter run is a digit, which
matches neither `.` nor the terminator), so plain left-to-right scanning is
faithful to `re.search`. -/
def matchNumBefore (term : Char) : List Char → Option ℚ
  | [] => none
  | c :: cs =>
    if c.isDigit then
      let ds := (c :: cs).takeWhile Char.isDigit
      match (c :: cs).dropWhile Char.isDigit with
      | '.' :: r₂ =>
        let fs := r₂.takeWhile Char.isDigit
        if fs ≠ [] ∧ (r₂.dropWhile Char.isDigit).head? = some term then
          some ((digitsToNat ds : ℚ) + (digitsToNat fs : ℚ) / ((10 ^ fs.length : ℕ) : ℚ))
        else
          matchNumBefore term cs
      | t :: _ =>
        if t = term then some ((digitsToNat ds : ℚ)) else matchNumBefore term cs
      | [] => matchNumBefore term cs
    else
      matchNumBefore term cs

/-- Leftmost percentage match (regex `(\d+(?:\.\d+)?)%`) in a string. -/
def searchPctNumber (s : String) : Option ℚ := matchNumBefore '%' s.toList

/-- Leftmost reward-multiple match (regex `(\d+(?:\.\d+)?)r`) in a string. -/
def searchRewardNumber (s : String) : Option ℚ := matchNumBefore 'r' s.toList

/-- Embedding of `models.ActionType`. -/
inductive ActionType
  | long
  | short
  | no_trade
deriving DecidableEq, Repr

/-- The `.value` string of an `ActionType` member. -/
def ActionType.value : ActionType → String
  | .long => "long"
  | .short => "short"
  | .no_trade => "no-trade"

/-- Embedding of `models.OrderType`. -/
inductive OrderType
  | market
  | limit
deriving DecidableEq, Repr

/-- The `.value` string of an `OrderType` member. -/
def OrderType.value : OrderType → String
  | .market => "market"
  | .limit => "limit"

/-- Embedding of `models.StrategyConfig` (the fields, with floats as rationals). -/
structure StrategyConfig where
  risk_per_position_pct : ℚ
  max_positions : ℕ
  hype_threshold_long : ℚ
  hype_threshold_short : ℚ
  confidence_threshold : ℚ
  min_price_usd : ℚ
  min_daily_volume : ℕ
  max_bid_ask_spread_pct : ℚ
  earnings_lockout_days : ℕ
  drawdown_kill_switch_pct : ℚ
deriving DecidableEq, Repr

/-- The default `StrategyConfig` values from `models.py`. -/
def defaultStrategyConfig : StrategyConfig where
  risk_per_position_pct := 3 / 4
  max_positions := 6
  hype_threshold_long := 7 / 10
  hype_threshold_short := 3 / 10
  confidence_threshold := 13 / 20
  min_price_usd := 5
  min_daily_volume := 1000000
  max_bid_ask_spread_pct := 1
  earnings_lockout_days := 2
  drawdown_kill_switch_pct := 6

/-- Embedding of `models.OrderPlan`. -/
structure OrderPlan where
  type : OrderType
  entry_note : String
  limit_price : Option ℚ
  stop_logic : String
  take_profit_logic : String
  size_pct_equity : ℚ
  qty_estimate : ℤ
deriving DecidableEq, Repr

/-- Embedding of `models.DecisionItem` (the field `upside_downside_ratio` is shortened to
`upside_downside` here; it is never read by the executor). -/
structure DecisionItem where
  symbol : String
  action : ActionType
  confidence : ℚ
  upside_downside : ℚ
  exp_return_brief : String
  order_plan : Option OrderPlan
deriving DecidableEq, Repr

/-- Embedding of `executor.ExecutionStatus`. -/
inductive ExecutionStatus
  | pending
  | submitted
  | filled
  | cancelled
  | rejected
  | failed
deriving DecidableEq, Repr

/-- The `.value` string of an `ExecutionStatus` member. -/
def ExecutionStatus.value : ExecutionStatus → String
  | .pending => "pending"
  | .submitted => "submitted"
  | .filled => "filled"
  | .cancelled => "cancelled"
  | .rejected => "rejected"
  | .failed => "failed"

/-- The `ExecutionStatus(s)` enum constructor: `some` member whose value is
`s`, `none` when `s` is no valid value (Python raises `ValueError`). -/
def ExecutionStatus.ofValue (s : String) : Option ExecutionStatus :=
  if s = "pending" then some .pending
  else if s = "submitted" then some .submitted
  else if s = "filled" then some .filled
  else if s = "cancelled" then some .cancelled
  else if s = "rejected" then some .rejected
  else if s = "failed" then some .failed
  else none

/-- Embedding of `executor.ExecutionResult`. -/
structure ExecutionResult where
  op_id : String
  status : ExecutionStatus
  order_id : Option String
  filled_qty : ℤ
  filled_price : Option ℚ
  error_message : Option String
deriving DecidableEq, Repr

/-- Embedding of `executor.ExecutionPlan`. -/
structure ExecutionPlan where
  op_id : String
  symbol : String
  action : String
  quantity : ℤ
  entry_price : Option ℚ
  stop_price : Option ℚ
  take_profit_price : Option ℚ
  order_type : String
  estimated_cost : ℚ
  risk_amount : ℚ
deriving DecidableEq, Repr

/-- One row of the `orders` table (`models.DBOrder`); the autoincrement id and
the timestamp columns, which no claim touches, are omitted.  The uniqueness
constraint on `op_id` is enforced in `store_execution_result` below. -/
structure OrderRow where
  op_id : String
  run_id : String
  symbol : String
  action : String
  order_type : String
  quantity : ℤ
  limit_price : Option ℚ
  stop_price : Option ℚ
  alpaca_order_id : Option String
  status : String
  filled_qty : ℤ
  filled_price : Option ℚ
  error_message : Option String
deriving DecidableEq, Repr

/-- The execution-ledger state: the `orders` table plus failure-injection
flags for database reads and writes (a raised `SQLAlchemyError` and the like,
absorbed by the `try/except` blocks of `store.py`). -/
structure Ledger where
  orders : List OrderRow
  readRaises : Bool
  writeRaises : Bool
deriving DecidableEq, Repr

/-- Embedding of `alpaca_client.AlpacaAccount` (fields read by the executor and runner). -/
structure Account where
  equity : ℚ
  cash : ℚ
  buying_power : ℚ
deriving DecidableEq, Repr

/-- Embedding of `alpaca_client.AlpacaPosition` (fields read by the executor and runner). -/
structure Position where
  symbol : String
  quantity : ℤ
  market_value : ℚ
  unrealized_pnl : ℚ
deriving DecidableEq, Repr

/-- One `submit_order` call made to the broker gateway. -/
structure SubmitCall where
  symbol : String
  side : String
  quantity : ℤ
  order_type : String
  limit_price : Option ℚ
deriving DecidableEq, Repr

/-- The broker gateway as an oracle of responses for one execution attempt:
`getAccount`/`getPositions`/`getPosition` are the (already retry-wrapped)
responses of `alpaca_client.py`, `submitOrder` is the order-id response of
`submit_order` (`none` means submission failed), `submitRaises` injects an
exception out of the submission step, and `validateExn` injects an exception
out of one of the broker calls inside `_validate_execution_plan`. -/
structure Broker where
  getAccount : Option Account
  getPositions : List Position
  getPosition : String → Option Position
  submitOrder : Option String
  submitRaises : Option String
  validateExn : Bool

/-- The first `orders` row matching an operation id
(`session.query(DBOrder).filter(DBOrder.op_id == op_id).first()`). -/
def findOrder (l : Ledger) (opId : String) : Option OrderRow :=
  l.orders.find? (fun row => row.op_id == opId)

/-- Embedding of `DatabaseStore.is_operation_executed` (store.py): whether a row exists
for the operation id; any database exception yields `False`.  The executor's
`_is_operation_executed` wrapper catches again with the same fallback, so it
coincides with this function. -/
def is_operation_executed (l : Ledger) (opId : String) : Bool :=
  if l.readRaises then false else (findOrder l opId).isSome

/-- Embedding of `DatabaseStore.get_execution_result` (store.py): rebuild an
`ExecutionResult` from the stored row; `none` when no row exists or on any
exception (including an invalid stored status string).  The executor's
`_get_execution_result` wrapper catches again with fallback `None`, so it
coincides with this function. -/
def get_execution_result (l : Ledger) (opId : String) : Option ExecutionResult :=
  if l.readRaises then none
  else
    match findOrder l opId with
    | none => none
    | some row =>
      match ExecutionStatus.ofValue row.status with
      | none => none
      | some st =>
        some { op_id := row.op_id, status := st, order_id := row.alpaca_order_id,
               filled_qty := row.filled_qty, filled_price := row.filled_price,
               error_message := row.error_message }

/-- The `DBOrder` row built by `DatabaseStore.store_execution_result`. -/
def mkOrderRow (result : ExecutionResult) (plan : ExecutionPlan) (run_id : String) : OrderRow :=
  { op_id := result.op_id, run_id := run_id, symbol := plan.symbol,
    action := plan.action, order_type := plan.order_type,
    quantity := plan.quantity, limit_price := plan.entry_price,
    stop_price := plan.stop_price, alpaca_order_id := result.order_id,
    status := result.status.value, filled_qty := result.filled_qty,
    filled_price := result.filled_price, error_message := result.error_message }

/-- Embedding of `DatabaseStore.store_execution_result` (store.py): insert one row keyed by
`result.op_id` and return `True`; the unique constraint on `op_id` makes the
flush raise when a row with the same id already exists, and the session is
rolled back (no insert) while the `except` clause returns `False` — the same
`False` any other database error produces. -/
def store_execution_result (l : Ledger) (result : ExecutionResult)
    (plan : ExecutionPlan) (run_id : String) : Bool × Ledger :=
  if l.writeRaises then (false, l)
  else if (findOrder l result.op_id).isSome then (false, l)
  else (true, { l with orders := l.orders ++ [mkOrderRow result plan run_id] })

/-- One row of the `equity_curve` table (`models.DBEquityCurve`); the
autoincrement id and the timestamp are omitted. -/
structure EquityPoint where
  total_equity : ℚ
  cash : ℚ
  positions_value : ℚ
  unrealized_pnl : ℚ
  realized_pnl_daily : ℚ
  drawdown_pct : ℚ
  peak_equity : ℚ
  num_positions : ℕ
deriving DecidableEq, Repr

/-- Embedding of `DatabaseStore.update_equity_curve` (store.py): fetch
`max(peak_equity)` over the stored points — Python's `scalar() or
total_equity` replaces both an empty table (`None`) and a stored maximum of
exactly `0.0` (falsy) by the current equity — take
`peak = max(latest_peak, total_equity)`, derive
`drawdown_pct = (peak - total) / peak * 100` when `peak > 0` (else `0`), and
append one point.  `num_positions` comes from a count over the positions
table, which is passed in here since no claim constrains it.  The appended
point is factored out as `newEquityPoint`. -/
def newEquityPoint (curve : List EquityPoint) (total_equity cash positions_value
    unrealized_pnl realized_pnl_daily : ℚ) (num_positions : ℕ) : EquityPoint :=
  let latest_peak :=
    match (curve.map (fun p => p.peak_equity)).max? with
    | none => total_equity
    | some m => if m = 0 then total_equity else m
  let peak_equity := max latest_peak total_equity
  let drawdown_pct := if 0 < peak_equity then ((peak_equity - total_equity) / peak_equity) * 100 else 0
  { total_equity := total_equity, cash := cash,
    positions_value := positions_value, unrealized_pnl := unrealized_pnl,
    realized_pnl_daily := realized_pnl_daily, drawdown_pct := drawdown_pct,
    peak_equity := peak_equity, num_positions := num_positions }

/-- The append performed by `DatabaseStore.update_equity_curve`. -/
def update_equity_curve (curve : List EquityPoint) (total_equity cash positions_value
    unrealized_pnl realized_pnl_daily : ℚ) (num_positions : ℕ) : List EquityPoint :=
  curve ++ [newEquityPoint curve total_equity cash positions_value unrealized_pnl
    realized_pnl_daily num_positions]

/-- The peak recomputed by the kill switch: `max(point["total_equity"] for
point in equity_data)` over a non-empty window. -/
def killSwitchPeak (r : EquityPoint) (rs : List EquityPoint) : ℚ :=
  (rs.map (fun p => p.total_equity)).foldl max r.total_equity

/-- Embedding of `TradingRunner._check_kill_switch` (runner.py): read the recent equity
window (an exception while reading — `readFails` — is caught and yields
`False`, and `get_equity_curve` itself returns `[]` on its own errors), return
`False` on an empty window, recompute the peak as the maximum `total_equity`,
and activate only when the peak is positive and the drawdown against it
strictly exceeds the configured threshold. -/
def check_kill_switch (cfg : StrategyConfig) (equity_data : List EquityPoint)
    (readFails : Bool) (current_equity : ℚ) : Bool :=
  if readFails then false
  else
    match equity_data with
    | [] => false
    | r :: rs =>
      let peak_equity := killSwitchPeak r rs
      if 0 < peak_equity then
        decide (cfg.drawdown_kill_switch_pct < ((peak_equity - current_equity) / peak_equity) * 100)
      else false

/-- The stop-distance percent used inside `_calculate_position_size`
(executor.py, lines 222-231): default `0.02`; when the stop-loss description
is non-empty and the percentage regex matches the raw (not lowercased)
description, the parsed percentage is used.  There is no volatility-range
(ATR) branch here. -/
def sizeStopDistancePct (stop_logic : String) : ℚ :=
  if stop_logic ≠ "" then
    match searchPctNumber stop_logic with
    | some p => p / 100
    | none => 1 / 50
  else 1 / 50

/-- The stop-distance percent used inside `_calculate_stop_price`
(executor.py, lines 261-274), applied to the lowercased description: the
parsed percentage; else `0.04` when the description mentions `atr`; else
`0.02`. -/
def stopStopDistancePct (logic_lower : String) : ℚ :=
  match searchPctNumber logic_lower with
  | some p => p / 100
  | none => if hasSub "atr".toList logic_lower.toList then 1 / 25 else 1 / 50

/-- Embedding of `OrderExecutor._calculate_position_size` (executor.py).  The decision's
`size_pct_equity` is used unless non-positive or above the configured
`risk_per_position_pct`; the risk amount is `equity * risk_pct / 100`; the
quantity `int(risk_amount / stop_distance)` is clamped by
`max(1, min(quantity, int(equity * 0.1 / price)))`.  A stop distance of zero
makes the Python division raise `ZeroDivisionError`, caught by the
surrounding `except` which returns `0`; no other exception is reachable. -/
def calculate_position_size (cfg : StrategyConfig) (decision : DecisionItem)
    (current_equity current_price : ℚ) : ℤ :=
  match decision.order_plan with
  | none => 0
  | some op =>
    let risk_pct :=
      if op.size_pct_equity ≤ 0 ∨ cfg.risk_per_position_pct < op.size_pct_equity then
        cfg.risk_per_position_pct
      else op.size_pct_equity
    let risk_amount := current_equity * (risk_pct / 100)
    let stop_distance_pct := sizeStopDistancePct op.stop_logic
    let stop_distance := current_price * stop_distance_pct
    if stop_distance = 0 then 0
    else
      let quantity := pyTrunc (risk_amount / stop_distance)
      let max_quantity := pyTrunc (current_equity * (1 / 10) / current_price)
      max 1 (min quantity max_quantity)

/-- Embedding of `OrderExecutor._calculate_stop_price` (executor.py): `None` without an
order plan or with an empty stop-loss description; otherwise the stop
distance of `stopStopDistancePct` applied below (long) or above (short) the
current price, rounded to cents. -/
def calculate_stop_price (decision : DecisionItem) (current_price : ℚ) : Option ℚ :=
  match decision.order_plan with
  | none => none
  | some op =>
    if op.stop_logic = "" then none
    else
      let stop_distance_pct := stopStopDistancePct (pyLower op.stop_logic)
      let stop_price :=
        if decision.action = ActionType.long then current_price * (1 - stop_distance_pct)
        else current_price * (1 + stop_distance_pct)
      some (pyRound2 stop_price)

/-- Embedding of `OrderExecutor._calculate_take_profit_price` (executor.py): `None`
without an order plan or stop price; otherwise the reward multiple parsed
from the lowercased take-profit description (default `1.5`) applied to the
risk distance, rounded to cents. -/
def calculate_take_profit_price (decision : DecisionItem) (current_price : ℚ)
    (stop_price : Option ℚ) : Option ℚ :=
  match decision.order_plan, stop_price with
  | some op, some sp =>
    let rr :=
      match searchRewardNumber (pyLower op.take_profit_logic) with
      | some r => r
      | none => 3 / 2
    let risk_distance := |current_price - sp|
    let tp_price :=
      if decision.action = ActionType.long then current_price + risk_distance * rr
      else current_price - risk_distance * rr
    some (pyRound2 tp_price)
  | _, _ => none

/-- Embedding of `OrderExecutor._calculate_risk_amount` (executor.py). -/
def calculate_risk_amount (entry_price : ℚ) (stop_price : Option ℚ) (quantity : ℤ) : ℚ :=
  match stop_price with
  | none => 0
  | some sp => |entry_price - sp| * (quantity : ℚ)

/-- Embedding of `OrderExecutor._create_execution_plan` (executor.py): `None` without an
order plan or with a non-positive computed quantity; otherwise the plan with
entry price taken from the limit price for limit orders, estimated cost
`quantity * (entry_price or current_price)` (Python `or`: a `None` or `0.0`
entry price falls back to the current price), and the dollar risk computed
against the current price. -/
def create_execution_plan (cfg : StrategyConfig) (decision : DecisionItem)
    (current_equity current_price : ℚ) (op_id : String) : Option ExecutionPlan :=
  match decision.order_plan with
  | none => none
  | some op =>
    let quantity := calculate_position_size cfg decision current_equity current_price
    if quantity ≤ 0 then none
    else
      let entry_price := if op.type = OrderType.limit then op.limit_price else none
      let stop_price := calculate_stop_price decision current_price
      let take_profit_price := calculate_take_profit_price decision current_price stop_price
      let entry_or_current :=
        match entry_price with
        | some p => if p = 0 then current_price else p
        | none => current_price
      let estimated_cost := (quantity : ℚ) * entry_or_current
      let risk_amount := calculate_risk_amount current_price stop_price quantity
      some { op_id := op_id, symbol := decision.symbol, action := decision.action.value,
             quantity := quantity, entry_price := entry_price, stop_price := stop_price,
             take_profit_price := take_profit_price, order_type := op.type.value,
             estimated_cost := estimated_cost, risk_amount := risk_amount }

/-- Embedding of `OrderExecutor._validate_execution_plan` (executor.py): `False` when any
broker call inside raises (`validateExn`), when no account is available, and
on each failed gate in order — estimated cost over buying power, open
positions at or above the configured maximum, risk amount over
`equity * risk_per_position_pct / 100`, an existing position for the
symbol; `True` otherwise. -/
def validate_execution_plan (broker : Broker) (cfg : StrategyConfig)
    (plan : ExecutionPlan) : Bool :=
  if broker.validateExn then false
  else
    match broker.getAccount with
    | none => false
    | some account =>
      if account.buying_power < plan.estimated_cost then false
      else if cfg.max_positions ≤ broker.getPositions.length then false
      else if account.equity * (cfg.risk_per_position_pct / 100) < plan.risk_amount then false
      else if (broker.getPosition plan.symbol).isSome then false
      else true

/-- Embedding of `OrderExecutor._execute_plan` (executor.py): one `submit_order` call; a
`None` order id yields a `REJECTED` result, an exception out of the
submission yields a `FAILED` result with the message, a returned id yields
`SUBMITTED`. -/
def execute_plan (broker : Broker) (plan : ExecutionPlan) :
    ExecutionResult × List SubmitCall :=
  let side := if plan.action = "long" then "buy" else "sell"
  let call : SubmitCall :=
    { symbol := plan.symbol, side := side, quantity := plan.quantity,
      order_type := plan.order_type, limit_price := plan.entry_price }
  match broker.submitRaises with
  | some msg =>
    ({ op_id := plan.op_id, status := .failed, order_id := none, filled_qty := 0,
       filled_price := none, error_message := some msg }, [call])
  | none =>
    match broker.submitOrder with
    | none =>
      ({ op_id := plan.op_id, status := .rejected, order_id := none, filled_qty := 0,
         filled_price := none, error_message := some "Order submission failed" }, [call])
    | some oid =>
      ({ op_id := plan.op_id, status := .submitted, order_id := some oid, filled_qty := 0,
         filled_price := none, error_message := none }, [call])

/-- Embedding of `OrderExecutor.execute_decision` (executor.py): skip `no-trade`; compute
the operation id `run_id_symbol_action`; replay the stored result when the
ledger already holds a record; otherwise plan, validate, submit and persist.
The output is the returned `Optional[ExecutionResult]`, the ledger after the
call, and the list of broker `submit_order` calls made.  The in-memory
`pending_operations` dict (set and popped within the submitting path, used
only for best-effort staleness cleanup) is not modelled.  Every inner step
carries its own `try/except` fallback, so the outer `except` of
`execute_decision` is unreachable; component exceptions are absorbed where
the Python code absorbs them. -/
def execute_decision (broker : Broker) (cfg : StrategyConfig) (ledger : Ledger)
    (decision : DecisionItem) (current_equity current_price : ℚ) (run_id : String) :
    Option ExecutionResult × Ledger × List SubmitCall :=
  if decision.action = ActionType.no_trade then (none, ledger, [])
  else
    let op_id := run_id ++ "_" ++ decision.symbol ++ "_" ++ decision.action.value
    if is_operation_executed ledger op_id then
      (get_execution_result ledger op_id, ledger, [])
    else
      match create_execution_plan cfg decision current_equity current_price op_id with
      | none => (none, ledger, [])
      | some plan =>
        if validate_execution_plan broker cfg plan then
          let rc := execute_plan broker plan
          let ledger' := (store_execution_result ledger rc.1 plan run_id).2
          (some rc.1, ledger', rc.2)
        else (none, ledger, [])

/-! Concrete sample data, used by witnesses and counterexamples. -/

/-- An equity point whose stored fields all derive from one equity value. -/
def samplePoint (e : ℚ) : EquityPoint :=
  { total_equity := e, cash := 0, positions_value := 0, unrealized_pnl := 0,
    realized_pnl_daily := 0, drawdown_pct := 0, peak_equity := e, num_positions := 0 }

/-- A market order plan with an empty stop-loss description. -/
def sampleOrderPlan : OrderPlan :=
  { type := .market, entry_note := "", limit_price := none, stop_logic := "",
    take_profit_logic := "", size_pct_equity := 1 / 2, qty_estimate := 1 }

/-- A long decision for AAPL carrying `sampleOrderPlan`. -/
def sampleDecision : DecisionItem :=
  { symbol := "AAPL", action := .long, confidence := 1 / 2, upside_downside := 1,
    exp_return_brief := "", order_plan := some sampleOrderPlan }

/-- A submitted execution result for operation id `r1_AAPL_long`. -/
def sampleResult : ExecutionResult :=
  { op_id := "r1_AAPL_long", status := .submitted, order_id := some "oid1",
    filled_qty := 0, filled_price := none, error_message := none }

/-- An execution plan for one AAPL share. -/
def samplePlan : ExecutionPlan :=
  { op_id := "r1_AAPL_long", symbol := "AAPL", action := "long", quantity := 1,
    entry_price := none, stop_price := none, take_profit_price := none,
    order_type := "market", estimated_cost := 50, risk_amount := 1 / 2 }

/-- A healthy broker oracle: ample account, no open positions, submissions
succeed with order id `oid1`. -/
def sampleBroker : Broker :=
  { getAccount := some { equity := 10000, cash := 10000, buying_power := 100000 },
    getPositions := [], getPosition := fun _ => none, submitOrder := some "oid1",
    submitRaises := none, validateExn := false }

/-- An empty, healthy ledger. -/
def emptyLedger : Ledger := { orders := [], readRaises := false, writeRaises := false }

/-- One `store_execution_result` call as a fold step over the ledger. -/
def ledgerStep (l : Ledger) (c : ExecutionResult × ExecutionPlan × String) : Ledger :=
  (store_execution_result l c.1 c.2.1 c.2.2).2

/-- An order plan whose stop-loss description parses to a 0% stop distance,
which makes the Python sizing division raise and sizing fail. -/
def zeroStopOrderPlan : OrderPlan := { sampleOrderPlan with stop_logic := "0%" }

/-- A long decision carrying `zeroStopOrderPlan`. -/
def zeroStopDecision : DecisionItem := { sampleDecision with order_plan := some zeroStopOrderPlan }

/-- A broker oracle reporting zero buying power. -/
def brokerNoBuyingPower : Broker :=
  { sampleBroker with getAccount := some { equity := 10000, cash := 0, buying_power := 0 } }

/-- A ledger already holding the operation record `r1_AAPL_long`. -/
def storedLedger : Ledger :=
  { orders := [mkOrderRow sampleResult samplePlan "r1"], readRaises := false,
    writeRaises := false }

/-- A broker oracle whose order submission raises. -/
def raisingBroker : Broker := { sampleBroker with submitRaises := some "boom" }

/-- The plan `_create_execution_plan` derives from `sampleDecision` at equity
10000 and price 50: twenty shares, no stop (empty description), cost 1000. -/
def sampleBigPlan : ExecutionPlan :=
  { op_id := "r1" ++ "_" ++ sampleDecision.symbol ++ "_" ++ sampleDecision.action.value,
    symbol := "AAPL", action := "long", quantity := 20, entry_price := none,
    stop_price := none, take_profit_price := none, order_type := "market",
    estimated_cost := 1000, risk_amount := 0 }

/-! Helper lemmas. -/

theorem le_foldl_max (l : List ℚ) (a : ℚ) : a ≤ l.foldl max a := by
  induction l generalizing a with
  | nil => exact le_refl a
  | cons c t ih => exact le_trans (le_max_left a c) (ih (max a c))

theorem mem_le_foldl_max (l : List ℚ) (a b : ℚ) (hb : b ∈ l) : b ≤ l.foldl max a := by
  induction l generalizing a with
  | nil => cases hb
  | cons c t ih =>
    rcases List.mem_cons.mp hb with h | h
    · subst h
      exact le_trans (le_max_right a b) (le_foldl_max t (max a b))
    · exact ih (max a c) h

theorem max?_ge_of_mem (l : List ℚ) (m b : ℚ) (h : l.max? = some m) (hb : b ∈ l) : b ≤ m := by
  cases l with
  | nil => cases h
  | cons x xs =>
    have hx : (x :: xs).max? = some (xs.foldl max x) := rfl
    rw [hx] at h
    rcases List.mem_cons.mp hb with h' | h'
    · subst h'
      exact (Option.some_inj.mp h) ▸ le_foldl_max xs b
    · exact (Option.some_inj.mp h) ▸ mem_le_foldl_max xs x b h'

theorem ExecutionStatus.ofValue_value (st : ExecutionStatus) :
    ExecutionStatus.ofValue st.value = some st := by
  cases st <;> rfl

theorem store_execution_result_readRaises (l : Ledger) (r : ExecutionResult)
    (p : ExecutionPlan) (rid : String) :
    ((store_execution_result l r p rid).2).readRaises = l.readRaises := by
  unfold store_execution_result
  split
  · rfl
  · split <;> rfl

theorem store_execution_result_writeRaises (l : Ledger) (r : ExecutionResult)
    (p : ExecutionPlan) (rid : String) :
    ((store_execution_result l r p rid).2).writeRaises = l.writeRaises := by
  unfold store_execution_result
  split
  · rfl
  · split <;> rfl

theorem store_execution_result_insert (l : Ledger) (r : ExecutionResult)
    (p : ExecutionPlan) (rid : String) (hw : l.writeRaises = false)
    (hf : findOrder l r.op_id = none) :
    store_execution_result l r p rid =
      (true, { l with orders := l.orders ++ [mkOrderRow r p rid] }) := by
  simp [store_execution_result, hw, hf]

theorem get_execution_result_after_insert (l : Ledger) (r : ExecutionResult)
    (p : ExecutionPlan) (rid : String) (hr : l.readRaises = false)
    (hf : findOrder l r.op_id = none) :
    get_execution_result
      { l with orders := l.orders ++ [mkOrderRow r p rid] } r.op_id = some r := by
  unfold get_execution_result findOrder
  simp only [hr, if_false, Bool.false_eq_true]
  rw [List.find?_append]
  unfold findOrder at hf
  rw [hf]
  simp [mkOrderRow, List.find?, ExecutionStatus.ofValue_value]

/-- C10: the kill-switch check fails open — it is `false` whenever reading the
equity history raises, or the history is empty, or the recomputed peak is not
positive; it is `true` exactly when the history is non-empty, the window's
maximum total equity is positive, and the drawdown against that peak strictly
exceeds the configured threshold. -/
theorem kill_switch_fails_open :
    ∀ (cfg : StrategyConfig) (equity_data : List EquityPoint) (readFails : Bool)
      (current_equity : ℚ),
      (readFails = true → check_kill_switch cfg equity_data readFails current_equity = false) ∧
      (equity_data = [] → check_kill_switch cfg equity_data readFails current_equity = false) ∧
      (∀ r rs, equity_data = r :: rs → killSwitchPeak r rs ≤ 0 →
        check_kill_switch cfg equity_data readFails current_equity = false) ∧
      (∀ r rs, equity_data = r :: rs →
        (check_kill_switch cfg equity_data readFails current_equity = true ↔
          readFails = false ∧ 0 < killSwitchPeak r rs ∧
            cfg.drawdown_kill_switch_pct <
              ((killSwitchPeak r rs - current_equity) / killSwitchPeak r rs) * 100)) := by
  intro cfg equity_data readFails current_equity
  refine ⟨?_, ?_, ?_, ?_⟩
  · rintro rfl
    rfl
  · rintro rfl
    cases readFails <;> rfl
  · rintro r rs rfl hle
    cases readFails with
    | true => rfl
    | false => simp [check_kill_switch, not_lt.mpr hle]
  · rintro r rs rfl
    cases readFails with
    | true => simp [check_kill_switch]
    | false =>
      by_cases hpeak : 0 < killSwitchPeak r rs
      · simp [check_kill_switch, hpeak]
      · simp [check_kill_switch, hpeak]

/-- Witness for C10: the spec's worked example — peak 120,000, current
110,000 (8.33% drawdown) activates at the default 6% threshold; an empty
history stays inactive. -/
theorem kill_switch_fails_open_witness :
    check_kill_switch defaultStrategyConfig [samplePoint 120000] false 110000 = true ∧
    check_kill_switch defaultStrategyConfig [] false 110000 = false :=
  ⟨((kill_switch_fails_open defaultStrategyConfig [samplePoint 120000] false
        110000).2.2.2 (samplePoint 120000) [] rfl).mpr
      ⟨rfl, by norm_num [killSwitchPeak, samplePoint],
        by norm_num [killSwitchPeak, samplePoint, defaultStrategyConfig]⟩,
    (kill_switch_fails_open defaultStrategyConfig [] false 110000).2.1 rfl⟩

/-- C4: every execution plan accepted by `_validate_execution_plan` has
dollar risk at most `equity * risk_per_position_pct / 100` for the account
equity fetched during validation. -/
theorem accepted_plan_risk_capped :
    ∀ (broker : Broker) (cfg : StrategyConfig) (plan : ExecutionPlan),
      validate_execution_plan broker cfg plan = true →
      ∃ account, broker.getAccount = some account ∧
        plan.risk_amount ≤ account.equity * (cfg.risk_per_position_pct / 100) := by
  intro broker cfg plan h
  by_cases h1 : broker.validateExn
  · simp [validate_execution_plan, h1] at h
  · cases hacct : broker.getAccount with
    | none => simp [validate_execution_plan, h1, hacct] at h
    | some account =>
      by_cases h2 : account.buying_power < plan.estimated_cost
      · simp [validate_execution_plan, h1, hacct, h2] at h
      · by_cases h3 : cfg.max_positions ≤ broker.getPositions.length
        · simp [validate_execution_plan, h1, hacct, h2, h3] at h
        · by_cases h4 : account.equity * (cfg.risk_per_position_pct / 100) < plan.risk_amount
          · simp [validate_execution_plan, h1, hacct, h2, h3, h4] at h
          · exact ⟨account, rfl, not_lt.mp h4⟩

/-- Witness for C4: the healthy sample broker accepts the sample plan, whose
half-dollar risk sits below the default 0.75% cap on 10,000 equity. -/
theorem accepted_plan_risk_capped_witness :
    validate_execution_plan sampleBroker defaultStrategyConfig samplePlan = true ∧
    ∃ account, sampleBroker.getAccount = some account ∧
      samplePlan.risk_amount ≤ account.equity * (defaultStrategyConfig.risk_per_position_pct / 100) :=
  ⟨by norm_num [validate_execution_plan, sampleBroker, samplePlan, defaultStrategyConfig],
   accepted_plan_risk_capped sampleBroker defaultStrategyConfig samplePlan
     (by norm_num [validate_execution_plan, sampleBroker, samplePlan, defaultStrategyConfig])⟩

/-- C8 counterexample: a second insert for an operation id already recorded
returns exactly the same `False` as an insert hitting an unrelated storage
error, so the caller of `store_execution_result` cannot tell an idempotency
conflict apart from any other storage failure. -/
theorem duplicate_insert_indistinguishable :
    (store_execution_result
      { orders := [mkOrderRow sampleResult samplePlan "r1"], readRaises := false,
        writeRaises := false } sampleResult samplePlan "r1").1 = false ∧
    (store_execution_result
      { orders := [], readRaises := false, writeRaises := true }
      sampleResult samplePlan "r1").1 = false ∧
    (store_execution_result
      { orders := [mkOrderRow sampleResult samplePlan "r1"], readRaises := false,
        writeRaises := false } sampleResult samplePlan "r1").1 =
      (store_execution_result
        { orders := [], readRaises := false, writeRaises := true }
        sampleResult samplePlan "r1").1 := by
  refine ⟨?_, ?_, ?_⟩ <;> decide

/-- C8 amended: a duplicate insert does fail — the unique constraint fires,
nothing is written, and `store_execution_result` returns `False` — but
indistinguishably: an insert under any other storage error returns the very
same `False` with the ledger unchanged. -/
theorem duplicate_insert_fails_like_errors :
    (∀ (l : Ledger) (result : ExecutionResult) (plan : ExecutionPlan) (rid : String),
      l.writeRaises = false → (findOrder l result.op_id).isSome = true →
      store_execution_result l result plan rid = (false, l)) ∧
    (∀ (l : Ledger) (result : ExecutionResult) (plan : ExecutionPlan) (rid : String),
      l.writeRaises = true → store_execution_result l result plan rid = (false, l)) :=
  ⟨fun l result plan rid hw hf => by simp [store_execution_result, hw, hf],
   fun l result plan rid hw => by simp [store_execution_result, hw]⟩

/-- Witness for the amended C8 statement at concrete ledgers. -/
theorem duplicate_insert_fails_like_errors_witness :
    store_execution_result
      { orders := [mkOrderRow sampleResult samplePlan "r1"], readRaises := false,
        writeRaises := false } sampleResult samplePlan "r2" =
      (false, { orders := [mkOrderRow sampleResult samplePlan "r1"], readRaises := false,
                writeRaises := false }) ∧
    store_execution_result
      { orders := [], readRaises := true, writeRaises := true } sampleResult samplePlan "r2" =
      (false, { orders := [], readRaises := true, writeRaises := true }) :=
  ⟨duplicate_insert_fails_like_errors.1 _ sampleResult samplePlan "r2" rfl (by decide),
   duplicate_insert_fails_like_errors.2 _ sampleResult samplePlan "r2" rfl⟩

theorem store_preserves_op_id_nodup (l : Ledger) (r : ExecutionResult)
    (p : ExecutionPlan) (rid : String)
    (h : (l.orders.map (fun row => row.op_id)).Nodup) :
    (((store_execution_result l r p rid).2).orders.map (fun row => row.op_id)).Nodup := by
  by_cases hw : l.writeRaises
  · simpa [store_execution_result, hw] using h
  · by_cases hf : (findOrder l r.op_id).isSome
    · simpa [store_execution_result, hw, hf] using h
    · have hnone : findOrder l r.op_id = none := Option.not_isSome_iff_eq_none.mp hf
      have hnotmem : r.op_id ∉ l.orders.map (fun row => row.op_id) := by
        intro hmem
        obtain ⟨row, hrow, heq⟩ := List.mem_map.mp hmem
        have hfind : l.orders.find? (fun row => row.op_id == r.op_id) = none := hnone
        exact List.find?_eq_none.mp hfind row hrow (by simp [heq])
      simp only [store_execution_result, hw, hnone, Bool.false_eq_true, if_false,
        Option.isSome_none]
      simp only [List.map_append, List.map_cons, List.map_nil, mkOrderRow]
      exact List.Nodup.append h (List.nodup_singleton _)
        (by simpa [List.disjoint_singleton] using hnotmem)

/-- C2: at most one `orders` row per operation id ever exists — starting from
any ledger whose rows carry pairwise distinct operation ids, every sequence of
`store_execution_result` calls preserves that no two rows share an `op_id`
(the uniqueness constraint rejects a duplicate insert and leaves the table
unchanged). -/
theorem orders_op_id_unique :
    ∀ (calls : List (ExecutionResult × ExecutionPlan × String)) (l₀ : Ledger),
      (l₀.orders.map (fun row => row.op_id)).Nodup →
      ((calls.foldl ledgerStep l₀).orders.map (fun row => row.op_id)).Nodup := by
  intro calls
  induction calls with
  | nil => exact fun l₀ h => h
  | cons c cs ih =>
    intro l₀ h
    exact ih (ledgerStep l₀ c) (store_preserves_op_id_nodup l₀ c.1 c.2.1 c.2.2 h)

/-- Witness for C2: replaying the same call twice against the empty ledger
keeps the operation ids duplicate-free. -/
theorem orders_op_id_unique_witness :
    ((emptyLedger.orders.map (fun row => row.op_id)).Nodup) ∧
    ((([(sampleResult, samplePlan, "r1"), (sampleResult, samplePlan, "r1")].foldl
        ledgerStep emptyLedger).orders.map (fun row => row.op_id)).Nodup) :=
  ⟨by decide, orders_op_id_unique _ emptyLedger (by decide)⟩

/-- C3 counterexample: with 100 equity at price 50 the ten-percent cap
`int(equity * 0.1 / price)` is `0`, yet `_calculate_position_size` returns
the clamped quantity `1` — a positive quantity outside `[1, 0]` — and plan
creation succeeds instead of failing. -/
theorem sizing_min_clamp_counterexample :
    calculate_position_size defaultStrategyConfig sampleDecision 100 50 = 1 ∧
    pyTrunc ((100 : ℚ) * (1 / 10) / 50) = 0 ∧
    (create_execution_plan defaultStrategyConfig sampleDecision 100 50 "r1_AAPL_long").isSome
      = true := by
  have h50 : sizeStopDistancePct "" = 1 / 50 := rfl
  have htr : pyTrunc ((100 : ℚ) * (1 / 10) / 50) = 0 := by
    norm_num [pyTrunc]
  have hq : calculate_position_size defaultStrategyConfig sampleDecision 100 50 = 1 := by
    simp only [calculate_position_size, sampleDecision, sampleOrderPlan, defaultStrategyConfig, h50]
    norm_num [pyTrunc]
  refine ⟨hq, htr, ?_⟩
  have hplan : sampleDecision.order_plan = some sampleOrderPlan := rfl
  simp only [create_execution_plan, hplan, hq]
  simp

/-- C3 amended: for positive equity and price the computed quantity is either
`0` (the explicit sizing-failure path) or lies in
`[1, max 1 (int(equity * 0.1 / price))]`; in particular, when the
ten-percent cap is below `1` the function still returns the clamped quantity
`1` with a success result rather than failing. -/
theorem sizing_bounds_amended :
    ∀ (cfg : StrategyConfig) (decision : DecisionItem) (current_equity current_price : ℚ),
      0 < current_equity → 0 < current_price →
      (calculate_position_size cfg decision current_equity current_price = 0 ∨
        (1 ≤ calculate_position_size cfg decision current_equity current_price ∧
          calculate_position_size cfg decision current_equity current_price ≤
            max 1 (pyTrunc (current_equity * (1 / 10) / current_price)))) ∧
      (pyTrunc (current_equity * (1 / 10) / current_price) ≤ 0 →
        calculate_position_size cfg decision current_equity current_price = 0 ∨
          calculate_position_size cfg decision current_equity current_price = 1) := by
  intro cfg decision current_equity current_price hpe hpp
  cases hop : decision.order_plan with
  | none => exact ⟨Or.inl (by simp [calculate_position_size, hop]),
      fun _ => Or.inl (by simp [calculate_position_size, hop])⟩
  | some op =>
    by_cases hsd : current_price * sizeStopDistancePct op.stop_logic = 0
    · exact ⟨Or.inl (by simp [calculate_position_size, hop, hsd]),
        fun _ => Or.inl (by simp [calculate_position_size, hop, hsd])⟩
    · have hval : calculate_position_size cfg decision current_equity current_price =
          max 1 (min (pyTrunc (current_equity *
              ((if op.size_pct_equity ≤ 0 ∨ cfg.risk_per_position_pct < op.size_pct_equity then
                  cfg.risk_per_position_pct else op.size_pct_equity) / 100) /
              (current_price * sizeStopDistancePct op.stop_logic)))
            (pyTrunc (current_equity * (1 / 10) / current_price))) := by
        simp [calculate_position_size, hop, hsd]
      constructor
      · right
        constructor
        · rw [hval]
          exact le_max_left 1 _
        · rw [hval]
          exact max_le_max (le_refl 1) (min_le_right _ _)
      · intro hcap
        right
        rw [hval]
        exact max_eq_left (le_trans (min_le_right _ _) (le_trans hcap zero_le_one))

/-- Witness for the amended C3 statement at equity 100, price 50. -/
theorem sizing_bounds_amended_witness :
    (0 : ℚ) < 100 ∧ (0 : ℚ) < 50 ∧
    ((calculate_position_size defaultStrategyConfig sampleDecision 100 50 = 0 ∨
      (1 ≤ calculate_position_size defaultStrategyConfig sampleDecision 100 50 ∧
        calculate_position_size defaultStrategyConfig sampleDecision 100 50 ≤
          max 1 (pyTrunc ((100 : ℚ) * (1 / 10) / 50)))) ∧
      (pyTrunc ((100 : ℚ) * (1 / 10) / 50) ≤ 0 →
        calculate_position_size defaultStrategyConfig sampleDecision 100 50 = 0 ∨
          calculate_position_size defaultStrategyConfig sampleDecision 100 50 = 1)) :=
  ⟨by norm_num, by norm_num,
    sizing_bounds_amended defaultStrategyConfig sampleDecision 100 50 (by norm_num) (by norm_num)⟩

/-- C6 counterexample: for the stop-loss description `2x ATR stop` — no
percentage, mentions ATR — the quantity computation of
`_calculate_position_size` uses its unconditional 2% default, while
`_calculate_stop_price` uses its 4% ATR default: the two stop distances
differ, so the defaults are not the same. -/
theorem sizing_stop_default_counterexample :
    sizeStopDistancePct "2x ATR stop" = 1 / 50 ∧
    stopStopDistancePct (pyLower "2x ATR stop") = 1 / 25 ∧
    ¬ sizeStopDistancePct "2x ATR stop" = stopStopDistancePct (pyLower "2x ATR stop") := by
  refine ⟨rfl, rfl, ?_⟩
  intro h
  rw [show sizeStopDistancePct "2x ATR stop" = 1 / 50 from rfl,
    show stopStopDistancePct (pyLower "2x ATR stop") = 1 / 25 from rfl] at h
  norm_num at h

/-- C6 amended: when the stop-loss description is non-empty, contains no
percentage, and mentions a volatility-range term (ATR), the quantity
computation falls back to 2% — the ATR-based 4% default exists only in the
stop-price computation. -/
theorem stop_distance_defaults_amended :
    ∀ s : String, s ≠ "" → searchPctNumber s = none → searchPctNumber (pyLower s) = none →
      hasSub "atr".toList (pyLower s).toList = true →
      sizeStopDistancePct s = 1 / 50 ∧ stopStopDistancePct (pyLower s) = 1 / 25 := by
  intro s hne h1 h2 hatr
  constructor
  · simp [sizeStopDistancePct, hne, h1]
  · have hatr' : hasSub ['a', 't', 'r'] (pyLower s).data = true := hatr
    simp [stopStopDistancePct, h2, hatr']

/-- Witness for the amended C6 statement at the description `2x ATR stop`. -/
theorem stop_distance_defaults_amended_witness :
    ("2x ATR stop" ≠ "" ∧ searchPctNumber "2x ATR stop" = none ∧
      searchPctNumber (pyLower "2x ATR stop") = none ∧
      hasSub "atr".toList (pyLower "2x ATR stop").toList = true) ∧
    (sizeStopDistancePct "2x ATR stop" = 1 / 50 ∧
      stopStopDistancePct (pyLower "2x ATR stop") = 1 / 25) :=
  ⟨⟨by decide, rfl, by decide, by decide⟩,
    stop_distance_defaults_amended "2x ATR stop" (by decide) rfl (by decide) (by decide)⟩

/-- C7 counterexample: inserting total equity `0` and then `-1` records peak
equities `0` then `-1` — the stored maximum peak of exactly `0.0` is falsy in
Python, so it is replaced by the current (negative) equity and the recorded
peak decreases, contradicting both the `max(prior peak, equity)`
characterisation and monotonicity. -/
theorem peak_equity_monotone_counterexample :
    ((update_equity_curve (update_equity_curve [] 0 0 0 0 0 0) (-1) 0 0 0 0 0).map
        (fun p => p.peak_equity)) = [0, -1] ∧ ¬ ((0 : ℚ) ≤ -1) := by
  constructor
  · decide
  · norm_num

theorem max?_none_of_map_peak (curve : List EquityPoint)
    (h : (curve.map (fun p => p.peak_equity)).max? = none) : curve = [] := by
  cases curve with
  | nil => rfl
  | cons q qs => simp [List.max?_cons] at h

theorem newEquityPoint_peak (curve : List EquityPoint) (total cash pv upnl rpnl : ℚ)
    (np : ℕ) :
    (newEquityPoint curve total cash pv upnl rpnl np).peak_equity =
      max (match (curve.map (fun p => p.peak_equity)).max? with
            | none => total
            | some m => if m = 0 then total else m) total := rfl

/-- C7 amended: provided the current total equity is nonnegative and all stored
peaks are nonnegative, the point appended by `update_equity_curve` records
`peak = max(prior maximum peak, total)`, peak equity is non-decreasing, and
`drawdown_pct = (peak - total) / peak * 100` when the peak is positive, else
`0`.  (Without the nonnegativity proviso the characterisation fails: Python's
`scalar() or total_equity` treats a stored maximum peak of exactly `0.0` as
absent, so a negative equity arriving after a zero peak lowers the recorded
peak.) -/
theorem update_equity_curve_amended :
    ∀ (curve : List EquityPoint) (total cash pv upnl rpnl : ℚ) (np : ℕ),
      0 ≤ total → (∀ p ∈ curve, 0 ≤ p.peak_equity) →
      update_equity_curve curve total cash pv upnl rpnl np =
        curve ++ [newEquityPoint curve total cash pv upnl rpnl np] ∧
      (newEquityPoint curve total cash pv upnl rpnl np).total_equity = total ∧
      (newEquityPoint curve total cash pv upnl rpnl np).peak_equity =
        max (((curve.map (fun p => p.peak_equity)).max?).getD total) total ∧
      (∀ p ∈ curve, p.peak_equity ≤ (newEquityPoint curve total cash pv upnl rpnl np).peak_equity) ∧
      0 ≤ (newEquityPoint curve total cash pv upnl rpnl np).peak_equity ∧
      (newEquityPoint curve total cash pv upnl rpnl np).drawdown_pct =
        (if 0 < (newEquityPoint curve total cash pv upnl rpnl np).peak_equity then
          (((newEquityPoint curve total cash pv upnl rpnl np).peak_equity - total) /
            (newEquityPoint curve total cash pv upnl rpnl np).peak_equity) * 100
         else 0) := by
  intro curve total cash pv upnl rpnl np htot hall
  refine ⟨rfl, rfl, ?_, ?_, ?_, rfl⟩
  · rw [newEquityPoint_peak]
    cases hmax : (curve.map (fun p => p.peak_equity)).max? with
    | none => rfl
    | some m =>
      by_cases hm : m = 0
      · subst hm
        simp [max_self, max_eq_right htot]
      · simp [hm]
  · intro p hp
    rw [newEquityPoint_peak]
    cases hmax : (curve.map (fun p => p.peak_equity)).max? with
    | none =>
      have := max?_none_of_map_peak curve hmax
      subst this
      cases hp
    | some m =>
      have hpm : p.peak_equity ≤ m :=
        max?_ge_of_mem _ m p.peak_equity hmax (List.mem_map_of_mem _ hp)
      by_cases hm : m = 0
      · subst hm
        simpa [max_self] using le_trans hpm htot
      · simpa [hm] using le_trans hpm (le_max_left m total)
  · rw [newEquityPoint_peak]
    exact le_trans htot (le_max_right _ total)

/-- Witness for the amended C7 statement: after one 100-equity point, an
update at equity 90 keeps a peak of 100 = max(100, 90) and peaks stay
non-decreasing. -/
theorem update_equity_curve_amended_witness :
    (newEquityPoint [samplePoint 100] 90 0 0 0 0 0).peak_equity =
      max ((([samplePoint 100].map (fun p => p.peak_equity)).max?).getD 90) 90 ∧
    (∀ p ∈ [samplePoint 100],
      p.peak_equity ≤ (newEquityPoint [samplePoint 100] 90 0 0 0 0 0).peak_equity) :=
  ⟨(update_equity_curve_amended [samplePoint 100] 90 0 0 0 0 0 (by norm_num)
      (by decide)).2.2.1,
   (update_equity_curve_amended [samplePoint 100] 90 0 0 0 0 0 (by norm_num)
      (by decide)).2.2.2.1⟩

theorem create_execution_plan_op_id (cfg : StrategyConfig) (decision : DecisionItem)
    (current_equity current_price : ℚ) (op_id : String) (plan : ExecutionPlan)
    (h : create_execution_plan cfg decision current_equity current_price op_id = some plan) :
    plan.op_id = op_id := by
  cases hop : decision.order_plan with
  | none => simp [create_execution_plan, hop] at h
  | some op =>
    by_cases hq : calculate_position_size cfg decision current_equity current_price ≤ 0
    · simp [create_execution_plan, hop, hq] at h
    · simp only [create_execution_plan, hop, hq, if_false, Option.some_inj] at h
      rw [← h]

theorem execute_plan_op_id (broker : Broker) (plan : ExecutionPlan) :
    (execute_plan broker plan).1.op_id = plan.op_id := by
  cases hsr : broker.submitRaises with
  | some msg => simp [execute_plan, hsr]
  | none =>
    cases hso : broker.submitOrder with
    | none => simp [execute_plan, hsr, hso]
    | some oid => simp [execute_plan, hsr, hso]

theorem execute_plan_one_call (broker : Broker) (plan : ExecutionPlan) :
    (execute_plan broker plan).2.length = 1 := by
  cases hsr : broker.submitRaises with
  | some msg => simp [execute_plan, hsr]
  | none =>
    cases hso : broker.submitOrder with
    | none => simp [execute_plan, hsr, hso]
    | some oid => simp [execute_plan, hsr, hso]

/-- C5: when the decision is a trading action not yet in the ledger and either
sizing fails (no plan) or any validation gate fails, `execute_decision`
returns `None`, leaves the ledger unchanged, and makes no broker
`submit_order` call; and in particular a plan whose estimated cost exceeds
the reported buying power always fails validation. -/
theorem failed_gate_no_submit_no_write :
    (∀ (broker : Broker) (cfg : StrategyConfig) (ledger : Ledger) (decision : DecisionItem)
      (current_equity current_price : ℚ) (run_id : String),
      decision.action ≠ ActionType.no_trade →
      is_operation_executed ledger
        (run_id ++ "_" ++ decision.symbol ++ "_" ++ decision.action.value) = false →
      (create_execution_plan cfg decision current_equity current_price
          (run_id ++ "_" ++ decision.symbol ++ "_" ++ decision.action.value) = none ∨
        ∀ plan, create_execution_plan cfg decision current_equity current_price
            (run_id ++ "_" ++ decision.symbol ++ "_" ++ decision.action.value) = some plan →
          validate_execution_plan broker cfg plan = false) →
      execute_decision broker cfg ledger decision current_equity current_price run_id =
        (none, ledger, [])) ∧
    (∀ (broker : Broker) (cfg : StrategyConfig) (plan : ExecutionPlan) (account : Account),
      broker.getAccount = some account →
      account.buying_power < plan.estimated_cost →
      validate_execution_plan broker cfg plan = false) := by
  constructor
  · intro broker cfg ledger decision current_equity current_price run_id hnt hex hgate
    rcases hgate with hnone | hval
    · simp [execute_decision, hnt, hex, hnone]
    · cases hplan : create_execution_plan cfg decision current_equity current_price
          (run_id ++ "_" ++ decision.symbol ++ "_" ++ decision.action.value) with
      | none => simp [execute_decision, hnt, hex, hplan]
      | some plan => simp [execute_decision, hnt, hex, hplan, hval plan hplan]
  · intro broker cfg plan account hacct hbp
    by_cases h1 : broker.validateExn
    · simp [validate_execution_plan, h1]
    · simp [validate_execution_plan, h1, hacct, hbp]

/-- Witness for C5: a failed sizing aborts with no submission and no ledger
write, and zero buying power rejects the sample plan. -/
theorem failed_gate_no_submit_no_write_witness :
    execute_decision sampleBroker defaultStrategyConfig emptyLedger zeroStopDecision
      10000 50 "r1" = (none, emptyLedger, []) ∧
    validate_execution_plan brokerNoBuyingPower defaultStrategyConfig samplePlan = false := by
  have hpct : searchPctNumber "0%" = some ((digitsToNat ['0'] : ℚ)) := rfl
  have hzero : ((digitsToNat ['0'] : ℚ)) / 100 = 0 := by
    norm_num [digitsToNat, digitVal]
  have hpz : sizeStopDistancePct "0%" = 0 := by
    rw [sizeStopDistancePct]
    simp [hpct, hzero]
  have hq : calculate_position_size defaultStrategyConfig zeroStopDecision 10000 50 = 0 := by
    have hop : zeroStopDecision.order_plan = some zeroStopOrderPlan := rfl
    have hsl : zeroStopOrderPlan.stop_logic = "0%" := rfl
    simp only [calculate_position_size, hop, hsl, hpz]
    norm_num
  have hplan : create_execution_plan defaultStrategyConfig zeroStopDecision 10000 50
      ("r1" ++ "_" ++ zeroStopDecision.symbol ++ "_" ++ zeroStopDecision.action.value) =
      none := by
    have hop : zeroStopDecision.order_plan = some zeroStopOrderPlan := rfl
    simp [create_execution_plan, hop, hq]
  exact ⟨failed_gate_no_submit_no_write.1 sampleBroker defaultStrategyConfig emptyLedger
      zeroStopDecision 10000 50 "r1" (by decide) (by decide) (Or.inl hplan),
    failed_gate_no_submit_no_write.2 brokerNoBuyingPower defaultStrategyConfig samplePlan
      { equity := 10000, cash := 0, buying_power := 0 } rfl (by norm_num [samplePlan])⟩

/-- C1: when the ledger already holds a record for the operation id
`run_id_symbol_action` of a trading action (and the ledger read does not
error), `execute_decision` makes no broker `submit_order` call, leaves the
ledger unchanged, and returns the stored result; consequently, with a healthy
ledger, two invocations with the same run id and decision item make at most
one broker `submit_order` call in total and both return the same result. -/
theorem execute_decision_idempotent :
    (∀ (broker : Broker) (cfg : StrategyConfig) (ledger : Ledger) (decision : DecisionItem)
      (current_equity current_price : ℚ) (run_id : String),
      decision.action ≠ ActionType.no_trade →
      ledger.readRaises = false →
      (findOrder ledger
        (run_id ++ "_" ++ decision.symbol ++ "_" ++ decision.action.value)).isSome = true →
      execute_decision broker cfg ledger decision current_equity current_price run_id =
        (get_execution_result ledger
          (run_id ++ "_" ++ decision.symbol ++ "_" ++ decision.action.value), ledger, [])) ∧
    (∀ (broker : Broker) (cfg : StrategyConfig) (ledger : Ledger) (decision : DecisionItem)
      (current_equity current_price : ℚ) (run_id : String),
      ledger.readRaises = false → ledger.writeRaises = false →
      ((execute_decision broker cfg ledger decision current_equity current_price run_id).2.2.length
          + (execute_decision broker cfg
              (execute_decision broker cfg ledger decision current_equity current_price
                run_id).2.1
              decision current_equity current_price run_id).2.2.length ≤ 1) ∧
      (execute_decision broker cfg
          (execute_decision broker cfg ledger decision current_equity current_price run_id).2.1
          decision current_equity current_price run_id).1 =
        (execute_decision broker cfg ledger decision current_equity current_price run_id).1) := by
  constructor
  · intro broker cfg ledger decision current_equity current_price run_id hnt hr hsome
    have hex : is_operation_executed ledger
        (run_id ++ "_" ++ decision.symbol ++ "_" ++ decision.action.value) = true := by
      simp [is_operation_executed, hr, hsome]
    simp [execute_decision, hnt, hex]
  · intro broker cfg ledger decision current_equity current_price run_id hr hw
    by_cases hnt : decision.action = ActionType.no_trade
    · simp [execute_decision, hnt]
    · by_cases hex : is_operation_executed ledger
          (run_id ++ "_" ++ decision.symbol ++ "_" ++ decision.action.value) = true
      · have h1 : execute_decision broker cfg ledger decision current_equity current_price
            run_id =
            (get_execution_result ledger
              (run_id ++ "_" ++ decision.symbol ++ "_" ++ decision.action.value), ledger, []) := by
          simp [execute_decision, hnt, hex]
        simp [h1]
      · have hexF : is_operation_executed ledger
            (run_id ++ "_" ++ decision.symbol ++ "_" ++ decision.action.value) = false :=
          Bool.not_eq_true _ ▸ Bool.eq_false_iff.mpr hex
        have hfind : findOrder ledger
            (run_id ++ "_" ++ decision.symbol ++ "_" ++ decision.action.value) = none := by
          cases hf : findOrder ledger
              (run_id ++ "_" ++ decision.symbol ++ "_" ++ decision.action.value) with
          | none => rfl
          | some row => exact absurd (by simp [is_operation_executed, hr, hf]) hex
        cases hplan : create_execution_plan cfg decision current_equity current_price
            (run_id ++ "_" ++ decision.symbol ++ "_" ++ decision.action.value) with
        | none =>
          have h1 : execute_decision broker cfg ledger decision current_equity current_price
              run_id = (none, ledger, []) := by
            simp [execute_decision, hnt, hexF, hplan]
          simp [h1]
        | some plan =>
          by_cases hval : validate_execution_plan broker cfg plan = true
          · have hpid : plan.op_id =
                run_id ++ "_" ++ decision.symbol ++ "_" ++ decision.action.value :=
              create_execution_plan_op_id cfg decision current_equity current_price _ plan hplan
            have hrid : (execute_plan broker plan).1.op_id =
                run_id ++ "_" ++ decision.symbol ++ "_" ++ decision.action.value := by
              rw [execute_plan_op_id]
              exact hpid
            have h1 : execute_decision broker cfg ledger decision current_equity current_price
                run_id =
                (some (execute_plan broker plan).1,
                  (store_execution_result ledger (execute_plan broker plan).1 plan run_id).2,
                  (execute_plan broker plan).2) := by
              simp [execute_decision, hnt, hexF, hplan, hval]
            have hfind' : findOrder ledger (execute_plan broker plan).1.op_id = none := by
              rw [hrid]
              exact hfind
            have hins : store_execution_result ledger (execute_plan broker plan).1 plan run_id =
                (true, { ledger with
                  orders := ledger.orders ++ [mkOrderRow (execute_plan broker plan).1 plan run_id] }) :=
              store_execution_result_insert ledger (execute_plan broker plan).1 plan run_id hw hfind'
            have hfindApp : (ledger.orders ++
                  [mkOrderRow (execute_plan broker plan).1 plan run_id]).find?
                (fun row => row.op_id ==
                  (run_id ++ "_" ++ decision.symbol ++ "_" ++ decision.action.value)) =
                some (mkOrderRow (execute_plan broker plan).1 plan run_id) := by
              rw [List.find?_append, show ledger.orders.find?
                  (fun row => row.op_id ==
                    (run_id ++ "_" ++ decision.symbol ++ "_" ++ decision.action.value)) = none
                from hfind]
              simp [mkOrderRow, hrid]
            have hex2 : is_operation_executed
                { ledger with
                  orders := ledger.orders ++ [mkOrderRow (execute_plan broker plan).1 plan run_id] }
                (run_id ++ "_" ++ decision.symbol ++ "_" ++ decision.action.value) = true := by
              simp [is_operation_executed, findOrder, hr, hfindApp]
            have hget2 : get_execution_result
                { ledger with
                  orders := ledger.orders ++ [mkOrderRow (execute_plan broker plan).1 plan run_id] }
                (run_id ++ "_" ++ decision.symbol ++ "_" ++ decision.action.value) =
                some (execute_plan broker plan).1 := by
              have hbase := get_execution_result_after_insert ledger (execute_plan broker plan).1
                plan run_id hr hfind'
              rw [hrid] at hbase
              exact hbase
            have h2 : execute_decision broker cfg
                { ledger with
                  orders := ledger.orders ++ [mkOrderRow (execute_plan broker plan).1 plan run_id] }
                decision current_equity current_price run_id =
                (some (execute_plan broker plan).1,
                  { ledger with
                    orders := ledger.orders ++
                      [mkOrderRow (execute_plan broker plan).1 plan run_id] }, []) := by
              simp [execute_decision, hnt, hex2, hget2]
            rw [h1, hins]
            simp only [h2]
            simp [execute_plan_one_call]
          · have h1 : execute_decision broker cfg ledger decision current_equity current_price
                run_id = (none, ledger, []) := by
              simp [execute_decision, hnt, hexF, hplan, hval]
            simp [h1]

/-- Witness for C1: replay against a ledger holding `r1_AAPL_long` returns the
stored result with no submission, and a double invocation from the empty
ledger makes at most one submission and returns equal results. -/
theorem execute_decision_idempotent_witness :
    execute_decision sampleBroker defaultStrategyConfig storedLedger sampleDecision 100 50 "r1" =
      (get_execution_result storedLedger
        ("r1" ++ "_" ++ sampleDecision.symbol ++ "_" ++ sampleDecision.action.value),
        storedLedger, []) ∧
    ((execute_decision sampleBroker defaultStrategyConfig emptyLedger sampleDecision 100 50
        "r1").2.2.length +
      (execute_decision sampleBroker defaultStrategyConfig
        (execute_decision sampleBroker defaultStrategyConfig emptyLedger sampleDecision 100 50
          "r1").2.1 sampleDecision 100 50 "r1").2.2.length ≤ 1) ∧
    (execute_decision sampleBroker defaultStrategyConfig
        (execute_decision sampleBroker defaultStrategyConfig emptyLedger sampleDecision 100 50
          "r1").2.1 sampleDecision 100 50 "r1").1 =
      (execute_decision sampleBroker defaultStrategyConfig emptyLedger sampleDecision 100 50
        "r1").1 :=
  ⟨execute_decision_idempotent.1 sampleBroker defaultStrategyConfig storedLedger sampleDecision
      100 50 "r1" (by decide) rfl (by decide),
    (execute_decision_idempotent.2 sampleBroker defaultStrategyConfig emptyLedger sampleDecision
      100 50 "r1" rfl rfl).1,
    (execute_decision_idempotent.2 sampleBroker defaultStrategyConfig emptyLedger sampleDecision
      100 50 "r1" rfl rfl).2⟩

/-- C9: `execute_decision` is total over every combination of injected
component failures — database read or write errors, broker exceptions inside
validation, and an exception out of order submission — always returning `None`
or some `ExecutionResult`; when the broker raises during submission on the
submitting path, the returned result is `FAILED` carrying the exception
message (the inner `try/except` blocks absorb every component exception, so
none propagates to the caller). -/
theorem execute_decision_no_exception :
    ∀ (broker : Broker) (cfg : StrategyConfig) (ledger : Ledger) (decision : DecisionItem)
      (current_equity current_price : ℚ) (run_id : String),
      ((execute_decision broker cfg ledger decision current_equity current_price run_id).1 =
          none ∨
        ∃ r, (execute_decision broker cfg ledger decision current_equity current_price
          run_id).1 = some r) ∧
      (∀ msg plan, broker.submitRaises = some msg →
        decision.action ≠ ActionType.no_trade →
        is_operation_executed ledger
          (run_id ++ "_" ++ decision.symbol ++ "_" ++ decision.action.value) = false →
        create_execution_plan cfg decision current_equity current_price
          (run_id ++ "_" ++ decision.symbol ++ "_" ++ decision.action.value) = some plan →
        validate_execution_plan broker cfg plan = true →
        (execute_decision broker cfg ledger decision current_equity current_price run_id).1 =
          some { op_id := plan.op_id, status := .failed, order_id := none, filled_qty := 0,
                 filled_price := none, error_message := some msg }) := by
  intro broker cfg ledger decision current_equity current_price run_id
  constructor
  · cases h : (execute_decision broker cfg ledger decision current_equity current_price
        run_id).1 with
    | none => exact Or.inl rfl
    | some r => exact Or.inr ⟨r, rfl⟩
  · intro msg plan hsr hnt hexF hplan hval
    have hep1 : (execute_plan broker plan).1 =
        { op_id := plan.op_id, status := .failed, order_id := none, filled_qty := 0,
          filled_price := none, error_message := some msg } := by
      simp [execute_plan, hsr]
    simp [execute_decision, hnt, hexF, hplan, hval, hep1]

theorem sampleBigPlan_creation :
    create_execution_plan defaultStrategyConfig sampleDecision 10000 50
      ("r1" ++ "_" ++ sampleDecision.symbol ++ "_" ++ sampleDecision.action.value) =
      some sampleBigPlan := by
  have h50 : sizeStopDistancePct "" = 1 / 50 := rfl
  have hq20 : calculate_position_size defaultStrategyConfig sampleDecision 10000 50 = 20 := by
    simp only [calculate_position_size, sampleDecision, sampleOrderPlan,
      defaultStrategyConfig, h50]
    norm_num [pyTrunc]
  have hsp : calculate_stop_price sampleDecision 50 = none := by
    simp [calculate_stop_price, sampleDecision, sampleOrderPlan]
  simp only [create_execution_plan, hq20, hsp]
  simp only [sampleDecision, sampleOrderPlan]
  norm_num [calculate_take_profit_price, calculate_risk_amount, sampleBigPlan,
    ActionType.value, OrderType.value]
  rfl

/-- Witness for C9: with a broker that raises on submission, the submitting
path returns a `FAILED` result carrying the message. -/
theorem execute_decision_no_exception_witness :
    (execute_decision raisingBroker defaultStrategyConfig emptyLedger sampleDecision
        10000 50 "r1").1 =
      some { op_id := sampleBigPlan.op_id, status := .failed, order_id := none,
             filled_qty := 0, filled_price := none, error_message := some "boom" } :=
  (execute_decision_no_exception raisingBroker defaultStrategyConfig emptyLedger sampleDecision
    10000 50 "r1").2 "boom" sampleBigPlan rfl (by decide) (by decide) sampleBigPlan_creation
    (by norm_num [validate_execution_plan, raisingBroker, sampleBroker, sampleBigPlan,
      defaultStrategyConfig])
